import Mathlib

/-!
Shallow embedding of the CSV data-analyzer repository
(`src/Analyzer_app.py`, the Streamlit front-end, and
`src/data_analyzer_tk.py`, the Tkinter front-end).

Both front-ends drive the same three library operations:
`pd.read_csv` (Loader), `DataFrame.describe` plus a NumPy range loop
(Summarizer), and `Series.hist(bins=20)` via matplotlib (Plotter).
Numbers are modelled as rationals (`ℚ`); a missing value (pandas `NaN`
arising from an empty field or padding) is `none`.  CSV input is
modelled after tokenization: a list of rows, each a list of string
fields.  The numeric literal grammar covers plain decimal numerals
(optional sign, digits, optional fractional part), the shape exercised
by the repository's inputs.
-/

/-- Parses a list of decimal digit characters into a natural number;
`none` if a non-digit occurs.  The empty list parses as `0` (callers
check nonemptiness where it matters). -/
def natOfDigits (cs : List Char) : Option Nat :=
  cs.foldl
    (fun acc c =>
      match acc with
      | none => none
      | some n => if c.isDigit then some (n * 10 + (c.toNat - 48)) else none)
    (some 0)

/-- Numeric parsing used by column-kind inference: optional sign, then
either `digits`, `digits.digits`, `digits.`, or `.digits`.  Models the
float conversion `pd.read_csv` applies when inferring a numeric dtype. -/
def parseNum (s : String) : Option ℚ :=
  let cs := s.data
  let signed : Bool × List Char :=
    match cs with
    | '-' :: rest => (true, rest)
    | '+' :: rest => (false, rest)
    | _ => (false, cs)
  let neg := signed.1
  let body := signed.2
  let intPart := body.takeWhile (fun c => c ≠ '.')
  let rest := body.dropWhile (fun c => c ≠ '.')
  let mag : Option ℚ :=
    match rest with
    | [] =>
      if intPart.isEmpty then none
      else (natOfDigits intPart).map (fun n => (n : ℚ))
    | _ :: frac =>
      if intPart.isEmpty && frac.isEmpty then none
      else
        match natOfDigits intPart, natOfDigits frac with
        | some ip, some fp => some ((ip : ℚ) + (fp : ℚ) / (10 : ℚ) ^ frac.length)
        | _, _ => none
  mag.map (fun q => if neg then -q else q)

/-- A loaded column: numeric (cells are rationals or missing) when every
non-empty raw field parses as a number, otherwise text. -/
inductive ColData where
  | numeric (cells : List (Option ℚ))
  | text (cells : List String)
deriving DecidableEq, Repr

/-- Column-kind test. -/
def ColData.isNum : ColData → Bool
  | .numeric _ => true
  | .text _ => false

/-- The non-missing values of a column (for a text column, none). -/
def ColData.values : ColData → List ℚ
  | .numeric cells => cells.filterMap id
  | .text _ => []

/-- The loaded table: named columns in file order, rows positionally
aligned.  Mirrors the `DataFrame` held in `st.session_state.df`
(Streamlit) / the global `df` (Tkinter). -/
structure Table where
  headers : List String
  cols : List ColData
deriving DecidableEq, Repr

/-- Dtype inference for one raw column, as `pd.read_csv` does it: the
column is numeric iff every non-empty field parses as a number; empty
fields become missing values (`NaN`). -/
def mkColumn (raw : List String) : ColData :=
  if raw.all (fun s => s == "" || (parseNum s).isSome) then
    .numeric (raw.map (fun s => if s == "" then none else parseNum s))
  else
    .text raw

/-- Raw CSV content after tokenization: rows of string fields. -/
abbrev Csv := List (List String)

/-- The row width the pandas parser expects: the header's width, or the
first data row's width when that row is longer (its leading extra
fields become the row index). -/
def expectedWidth (header : List String) (body : Csv) : Nat :=
  header.length +
    (match body with
     | [] => 0
     | r :: _ => r.length - header.length)

/-- `pd.read_csv` on tokenized rows.  First row is the header.  A data
row with more fields than expected raises `ParserError` ("Error
tokenizing data"); rows with fewer fields are padded on the right with
missing values.  When the first data row is longer than the header,
pandas uses its leading extra fields as the row index, so the expected
width is that row's width and the leading extra fields of each row are
dropped from the named columns.  An empty input raises
`EmptyDataError`. -/
def read_csv (rows : Csv) : Except String Table :=
  match rows with
  | [] => .error "No columns to parse from file"
  | header :: body =>
    let w := header.length
    let expected := expectedWidth header body
    let k := expected - w
    if body.any (fun r => expected < r.length) then
      .error "Error tokenizing data"
    else
      let dataRows := body.map
        (fun r => (r ++ List.replicate (expected - r.length) "").drop k)
      .ok
        { headers := header
          cols := (List.range w).map (fun i => mkColumn (dataRows.map (fun r => r.getD i ""))) }

/-- First column with the given name, as `df[column_name]` resolves it. -/
def Table.col? (t : Table) (name : String) : Option ColData :=
  ((t.headers.zip t.cols).find? (fun p => p.1 == name)).map (fun p => p.2)

/-- `column_name in df.columns`. -/
def Table.hasCol (t : Table) (name : String) : Bool :=
  t.headers.contains name

/-- `pd.api.types.is_numeric_dtype(df[column_name])` (false when the
column is absent). -/
def Table.isNumericCol (t : Table) (name : String) : Bool :=
  match t.col? name with
  | some c => c.isNum
  | none => false

/-- Smallest element of a list of rationals (`none` on the empty list). -/
def listMin : List ℚ → Option ℚ
  | [] => none
  | x :: xs => some (xs.foldl min x)

/-- Largest element of a list of rationals (`none` on the empty list). -/
def listMax : List ℚ → Option ℚ
  | [] => none
  | x :: xs => some (xs.foldl max x)

/-- The numeric part of a `describe()` record that the claims exercise:
count of non-missing values, mean, min, max.  `none` models pandas
`NaN` for an empty column. -/
structure ColStats where
  count : Nat
  mean : Option ℚ
  min : Option ℚ
  max : Option ℚ
deriving DecidableEq, Repr

/-- `describe()` on one numeric column: count skips missing values;
mean/min/max are `NaN` when no value remains. -/
def describeNumeric (cells : List (Option ℚ)) : ColStats :=
  let vs := cells.filterMap id
  { count := vs.length
    mean := if vs.length = 0 then none else some (vs.sum / vs.length)
    min := listMin vs
    max := listMax vs }

/-- One row of `describe()` output: numeric statistics for a numeric
column, or the object-column analysis (count/unique/top/freq — only the
non-missing count is modelled) that pandas falls back to. -/
inductive DescribeEntry where
  | numericStats (s : ColStats)
  | objectStats (count : Nat)
deriving DecidableEq, Repr

/-- The columns `df.describe()` reports on: exactly the numeric columns,
in original order, when at least one exists; otherwise pandas falls
back to analysing all (object) columns. -/
def describedPairs (t : Table) : List (String × ColData) :=
  let numeric := (t.headers.zip t.cols).filter (fun p => p.2.isNum)
  if numeric.isEmpty then t.headers.zip t.cols else numeric

/-- `df.describe()`: a mapping from described column name to its record,
in the table's original column order. -/
def describe (t : Table) : List (String × DescribeEntry) :=
  (describedPairs t).map
    (fun p =>
      match p.2 with
      | .numeric cells => (p.1, .numericStats (describeNumeric cells))
      | .text cells => (p.1, .objectStats (cells.countP (fun s => s != ""))))

/-- `np.max(df[col]) - np.min(df[col])` on a numeric column: `NaN`
(`none`) when the column has no non-missing values. -/
def colRange (cells : List (Option ℚ)) : Option ℚ :=
  match listMin (cells.filterMap id), listMax (cells.filterMap id) with
  | some mn, some mx => some (mx - mn)
  | _, _ => none

/-- The `f"{x:.2f}"` display rounding applied to the range value:
rounded to two decimal places (the raw statistic keeps full
precision). -/
def round2 (q : ℚ) : ℚ := (round (q * 100) : ℤ) / 100

/-- Result of one Summarizer invocation: the `describe()` table plus the
NumPy range lines, or an uncaught exception raised mid-way. -/
inductive StatsResult where
  | ok (stats : List (String × DescribeEntry)) (ranges : List (String × Option ℚ))
  | raised (msg : String)
deriving DecidableEq, Repr

/-- Histogram produced by `Series.hist(bins=20)`: 21 bin edges and 20
per-bin counts. -/
structure Histogram where
  edges : List ℚ
  counts : List Nat
deriving DecidableEq, Repr

/-- Edge `i` of 20 equal-width bins over `[lo, hi]`. -/
def binEdge (lo hi : ℚ) (i : Nat) : ℚ := lo + (hi - lo) * i / 20

/-- Membership of a value in bin `i`: bins are half-open except the
last, which is closed on both ends (NumPy histogram semantics). -/
def inBin (lo hi : ℚ) (i : Nat) (x : ℚ) : Bool :=
  if i = 19 then
    decide (binEdge lo hi 19 ≤ x) && decide (x ≤ binEdge lo hi 20)
  else
    decide (binEdge lo hi i ≤ x) && decide (x < binEdge lo hi (i + 1))

/-- The outer range NumPy uses when no explicit range is given:
`[min, max]` of the data, widened to `[min - 0.5, max + 0.5]` when all
values coincide, and `[0, 1]` for empty data. -/
def histRange (vs : List ℚ) : ℚ × ℚ :=
  match listMin vs, listMax vs with
  | some mn, some mx => if mn == mx then (mn - 1/2, mx + 1/2) else (mn, mx)
  | _, _ => (0, 1)

/-- `np.histogram(vs, bins=20)` as called through
`Series.hist(bins=20)` (which drops missing values first). -/
def histogram (vs : List ℚ) : Histogram :=
  let lo := (histRange vs).1
  let hi := (histRange vs).2
  { edges := (List.range 21).map (binEdge lo hi)
    counts := (List.range 20).map (fun i => vs.countP (inBin lo hi i)) }

/-- Outcome of one Plotter invocation: a drawable figure (histogram with
title and axis labels), or a user-facing message with no drawable
output (`st.warning` in the browser app, `messagebox.showerror` in the
desktop app). -/
inductive PlotResult where
  | figure (h : Histogram) (title xlabel ylabel : String)
  | noPlot (msg : String)
deriving DecidableEq, Repr

/-- Outcome of one Loader invocation. -/
inductive LoadReport where
  | success (msg : String)
  | failure (msg : String)
  | skipped
deriving DecidableEq, Repr

namespace App

/-- Streamlit session state: the loaded table (`st.session_state.df`),
the name guard (`st.session_state.last_uploaded_name`), and the UI
flags set by the two buttons. -/
structure State where
  df : Option Table
  last_uploaded_name : Option String
  show_stats : Bool
  show_plot : Bool
  plot_col : Option String
deriving DecidableEq, Repr

/-- `load_data` in `Analyzer_app.py`: parse the uploaded content; on
success store the table and report success, on any exception set the
stored table to `None` and report the error with the exception's
description. -/
def load_data (s : State) (name : String) (content : Csv) : State × LoadReport :=
  match read_csv content with
  | .ok t =>
    ({ s with df := some t }, .success ("File loaded successfully: " ++ name))
  | .error e =>
    ({ s with df := none },
     .failure ("Error loading file. Please check the format. Details: " ++ e))

/-- The upload handler (`Analyzer_app.py` lines 96–100): load only when
no table is held or the file name differs from the last uploaded name;
then record the name. -/
def uploadEvent (s : State) (name : String) (content : Csv) : State × LoadReport :=
  if s.df.isNone || s.last_uploaded_name != some name then
    let r := load_data s name content
    ({ r.1 with last_uploaded_name := some name }, r.2)
  else
    (s, .skipped)

/-- `show_statistics` in `Analyzer_app.py`: display `df.describe().T`,
then iterate over the described columns computing
`np.max(df[col]) - np.min(df[col])`, displayed formatted to two decimal
places.  When a described column is an
object column (which happens exactly when the table has no numeric
column), the string subtraction raises `TypeError` and the script run
aborts. -/
def show_statistics (t : Table) : StatsResult :=
  let described := describedPairs t
  if described.all (fun p => p.2.isNum) then
    .ok (describe t)
      (described.map
        (fun p =>
          match p.2 with
          | .numeric cells => (p.1, (colRange cells).map round2)
          | .text _ => (p.1, none)))
  else
    .raised "TypeError: unsupported operand types for subtraction: str and str"

/-- `visualize_data` in `Analyzer_app.py`: plot a 20-bin histogram when
the name is non-empty, present, and of numeric dtype; otherwise a
single generic warning and no figure. -/
def visualize_data (t : Table) (column_name : String) : PlotResult :=
  if column_name != "" && t.hasCol column_name && t.isNumericCol column_name then
    let vs := ((t.col? column_name).getD (.text [])).values
    .figure (histogram vs) ("Histogram of " ++ column_name) column_name "Frequency"
  else
    .noPlot "Please select a valid numerical column to plot."

/-- The "Show Descriptive Statistics" button: set the UI flags, then the
output area renders `show_statistics` on the held table (if any). -/
def statsEvent (s : State) : State × Option StatsResult :=
  let s1 := { s with show_stats := true, show_plot := false }
  (s1, s1.df.map show_statistics)

/-- The "Generate Histogram" button with a selected column: set the UI
flags and the chosen column, then the output area renders
`visualize_data`. -/
def plotEvent (s : State) (c : String) : State × Option PlotResult :=
  let s1 := { s with show_stats := false, show_plot := true, plot_col := some c }
  (s1, s1.df.map (fun t => visualize_data t c))

end App

namespace Tk

/-- `load_data` in `data_analyzer_tk.py`: the global `df` is replaced by
the parse result on success, and set to `None` with an error dialog on
failure.  The previously held table is not consulted. -/
def load_data (_df0 : Option Table) (content : Csv) : Option Table × LoadReport :=
  match read_csv content with
  | .ok t => (some t, .success "File loaded")
  | .error e => (none, .failure ("Could not load file. Details: " ++ e))

/-- `show_statistics` in `data_analyzer_tk.py`: display `df.describe()`,
then print a range line (formatted to two decimal places) only for
described columns that are of numeric dtype (the guard skips object columns, so no exception is raised and no
notice is shown for tables without numeric columns). -/
def show_statistics (t : Table) : StatsResult :=
  .ok (describe t)
    ((describedPairs t).filterMap
      (fun p =>
        match p.2 with
        | .numeric cells => some (p.1, (colRange cells).map round2)
        | .text _ => none))

/-- `visualize_data` in `data_analyzer_tk.py`: same validation as the
browser app, with a single generic error dialog for a missing and for a
non-numeric column alike. -/
def visualize_data (t : Table) (column_name : String) : PlotResult :=
  if column_name == "" || !t.hasCol column_name || !t.isNumericCol column_name then
    .noPlot "Please select a valid numerical column for visualization."
  else
    let vs := ((t.col? column_name).getD (.text [])).values
    .figure (histogram vs) ("Histogram of " ++ column_name) column_name "Frequency"

end Tk

/-- Bin index NumPy assigns to a value in `[lo, hi]` split into 20
equal-width bins: the floor of the rescaled position, clamped to the
last bin (a proof device characterizing `inBin`). -/
def binIdx (lo hi x : ℚ) : Nat :=
  min ⌊(x - lo) * 20 / (hi - lo)⌋₊ 19

/-- Example table: one numeric column `a` with values 1, 2. -/
def tNum1 : Table := ⟨["a"], [ColData.numeric [some 1, some 2]]⟩

/-- Example table: one text column `b`. -/
def tTextB : Table := ⟨["b"], [ColData.text ["x", "y"]]⟩

/-- Example table: one text column `name` (the load of CSV rows
`name / alice / bob`). -/
def tTextName : Table := ⟨["name"], [ColData.text ["alice", "bob"]]⟩

/-- Example table: one numeric column `a` whose values are all equal. -/
def tConst : Table := ⟨["a"], [ColData.numeric [some 5, some 5]]⟩

/-- Example table: a text column and a numeric column. -/
def tMixed : Table := ⟨["name", "v"], [ColData.text ["x"], ColData.numeric [some 1]]⟩

/-- Example table: one numeric column `v` with values 1..5. -/
def tVals15 : Table :=
  ⟨["v"], [ColData.numeric [some 1, some 2, some 3, some 4, some 5]]⟩

/-- Example session state holding `tNum1` loaded from `a.csv`. -/
def sLoaded : App.State := ⟨some tNum1, some "a.csv", false, false, none⟩

/-! ## Helper lemmas -/

lemma foldl_min_le (xs : List ℚ) (x : ℚ) : ∀ y ∈ x :: xs, xs.foldl min x ≤ y := by
  induction xs generalizing x with
  | nil =>
    intro y hy
    simp at hy
    simp [hy]
  | cons z zs ih =>
    intro y hy
    have hbase : zs.foldl min (min x z) ≤ min x z := ih (min x z) (min x z) (by simp)
    rcases hy with _ | ⟨_, hy⟩
    · exact le_trans hbase (min_le_left _ _)
    · rcases hy with _ | ⟨_, hy⟩
      · exact le_trans hbase (min_le_right _ _)
      · exact ih (min x z) y (List.mem_cons_of_mem _ hy)

lemma le_foldl_max (xs : List ℚ) (x : ℚ) : ∀ y ∈ x :: xs, y ≤ xs.foldl max x := by
  induction xs generalizing x with
  | nil =>
    intro y hy
    simp at hy
    simp [hy]
  | cons z zs ih =>
    intro y hy
    have hbase : max x z ≤ zs.foldl max (max x z) := ih (max x z) (max x z) (by simp)
    rcases hy with _ | ⟨_, hy⟩
    · exact le_trans (le_max_left _ _) hbase
    · rcases hy with _ | ⟨_, hy⟩
      · exact le_trans (le_max_right _ _) hbase
      · exact ih (max x z) y (List.mem_cons_of_mem _ hy)

lemma listMin_le {vs : List ℚ} {mn : ℚ} (h : listMin vs = some mn) :
    ∀ y ∈ vs, mn ≤ y := by
  cases vs with
  | nil => simp [listMin] at h
  | cons x xs =>
    intro y hy
    have h2 : xs.foldl min x = mn := by simpa [listMin] using h
    exact h2 ▸ foldl_min_le xs x y hy

lemma le_listMax {vs : List ℚ} {mx : ℚ} (h : listMax vs = some mx) :
    ∀ y ∈ vs, y ≤ mx := by
  cases vs with
  | nil => simp [listMax] at h
  | cons x xs =>
    intro y hy
    have h2 : xs.foldl max x = mx := by simpa [listMax] using h
    exact h2 ▸ le_foldl_max xs x y hy

lemma listMin_le_listMax {vs : List ℚ} {mn mx : ℚ}
    (h1 : listMin vs = some mn) (h2 : listMax vs = some mx) : mn ≤ mx := by
  cases vs with
  | nil => simp [listMin] at h1
  | cons x xs =>
    exact le_trans (listMin_le h1 x (by simp)) (le_listMax h2 x (by simp))

lemma hasCol_of_col? {t : Table} {c : String} {cd : ColData}
    (h : t.col? c = some cd) : t.hasCol c = true := by
  unfold Table.col? at h
  obtain ⟨p, hfind, hp2⟩ := Option.map_eq_some'.mp h
  have hpred := List.find?_some hfind
  have hmem := List.mem_of_find?_eq_some hfind
  obtain ⟨a, b⟩ := p
  have ha : a = c := by simpa using hpred
  subst ha
  have hmem2 : a ∈ t.headers := (List.of_mem_zip hmem).1
  simpa [Table.hasCol] using hmem2

/-! ## Claim theorems -/

/-- C1 (counterexample): a session holding a loaded table that runs a
failing load does not keep the previous table — the data state is
cleared, contradicting the claim that the previously loaded table is
still the session's current table. -/
theorem c1_counterexample :
    (App.uploadEvent sLoaded "b.csv" []).1.df ≠ some tNum1 ∧
    (App.uploadEvent sLoaded "b.csv" []).1.df = none := by decide

/-- C1 (amended): if the parse fails, the failure is reported as a
single error containing the parse failure's description, and the
session's table is cleared to none (the previously loaded table is
discarded, not kept) — in both front-ends. -/
theorem c1_amended_failure_clears_table (s : App.State) (d : Option Table)
    (name : String) (content : Csv) (e : String)
    (h : read_csv content = .error e) :
    (App.load_data s name content).1.df = none ∧
    (App.load_data s name content).2 =
      LoadReport.failure ("Error loading file. Please check the format. Details: " ++ e) ∧
    Tk.load_data d content =
      (none, LoadReport.failure ("Could not load file. Details: " ++ e)) := by
  simp [App.load_data, Tk.load_data, h]

theorem c1_witness :
    read_csv ([] : Csv) = .error "No columns to parse from file" ∧
    ((App.load_data sLoaded "b.csv" []).1.df = none ∧
     (App.load_data sLoaded "b.csv" []).2 =
       LoadReport.failure
         ("Error loading file. Please check the format. Details: " ++
           "No columns to parse from file") ∧
     Tk.load_data (some tNum1) [] =
       (none,
        LoadReport.failure
          ("Could not load file. Details: " ++ "No columns to parse from file"))) :=
  ⟨rfl,
   c1_amended_failure_clears_table sLoaded (some tNum1) "b.csv" []
     "No columns to parse from file" rfl⟩

/-- C2 (counterexample): an absent column and a present-but-non-numeric
column produce the very same generic message, so the validation error
does not name the specific reason ("column not found" vs "column not
numeric"). -/
theorem c2_counterexample :
    App.visualize_data tNum1 "b" =
      PlotResult.noPlot "Please select a valid numerical column to plot." ∧
    App.visualize_data tTextB "b" =
      PlotResult.noPlot "Please select a valid numerical column to plot." ∧
    tNum1.hasCol "b" = false ∧
    tTextB.hasCol "b" = true ∧ tTextB.isNumericCol "b" = false := by decide

/-- C2 (amended): for a missing, empty, or non-numeric column name the
Plotter fails with one fixed generic validation message — the same in
both failure cases, naming no specific reason — and produces no
drawable output. -/
theorem c2_amended_generic_warning (t : Table) (c : String)
    (h : c = "" ∨ t.hasCol c = false ∨ t.isNumericCol c = false) :
    App.visualize_data t c =
      PlotResult.noPlot "Please select a valid numerical column to plot." ∧
    Tk.visualize_data t c =
      PlotResult.noPlot "Please select a valid numerical column for visualization." := by
  have hg : (c != "" && t.hasCol c && t.isNumericCol c) = false := by
    rcases h with h | h | h <;> simp [h]
  have hg2 : (c == "" || !t.hasCol c || !t.isNumericCol c) = true := by
    rcases h with h | h | h <;> simp [h]
  exact ⟨by simp [App.visualize_data, hg], by simp [Tk.visualize_data, hg2]⟩

theorem c2_witness :
    ("b" = "" ∨ tNum1.hasCol "b" = false ∨ tNum1.isNumericCol "b" = false) ∧
    (App.visualize_data tNum1 "b" =
       PlotResult.noPlot "Please select a valid numerical column to plot." ∧
     Tk.visualize_data tNum1 "b" =
       PlotResult.noPlot "Please select a valid numerical column for visualization.") :=
  ⟨by decide, c2_amended_generic_warning tNum1 "b" (by decide)⟩

/-- C7 (counterexample): a CSV whose data row has fewer fields than the
header loads successfully — the short row is padded with a missing
value, no load failure is reported. -/
theorem c7_counterexample :
    read_csv [["a", "b"], ["1"]] =
      Except.ok ⟨["a", "b"], [ColData.numeric [some 1], ColData.numeric [none]]⟩ := by
  rfl

/-- C7 (amended): the Loader fails exactly when some data row has more
fields than the expected width (set by the header, or by the first data
row when that is longer); rows with fewer fields are padded with
missing values and the load succeeds. -/
theorem c7_amended_failure_iff_long_row (header : List String) (body : Csv) :
    read_csv (header :: body) = Except.error "Error tokenizing data" ↔
      body.any (fun r => expectedWidth header body < r.length) = true := by
  unfold read_csv
  by_cases h : body.any (fun r => expectedWidth header body < r.length) = true
  · simp [h]
  · simp [h]

/-- C8: loading the same content twice yields identical tables — the
result of a load does not depend on the previously held state (no
accumulation across loads), and an immediate reload is idempotent. -/
theorem c8_load_deterministic (s s' : App.State) (d d' : Option Table)
    (name : String) (content : Csv) :
    (App.load_data s name content).1.df = (App.load_data s' name content).1.df ∧
    Tk.load_data d content = Tk.load_data d' content ∧
    Tk.load_data (Tk.load_data d content).1 content = Tk.load_data d content := by
  cases h : read_csv content <;> simp [App.load_data, Tk.load_data, h]

/-- C9: invoking the Summarizer or the Plotter (the analysis button
events) leaves the session's table unchanged — only the UI flags move;
the table is replaced only by a load. -/
theorem c9_analysis_preserves_table (s : App.State) (c : String) :
    (App.statsEvent s).1.df = s.df ∧ (App.plotEvent s c).1.df = s.df :=
  ⟨rfl, rfl⟩

/-- C10: when a table is already held and the uploaded file's name
equals the last loaded name, the upload handler skips the Loader
entirely and the session state is unchanged, whatever the new file's
content. -/
theorem c10_same_name_skips_loader (s : App.State) (t : Table)
    (name : String) (content : Csv)
    (h1 : s.df = some t) (h2 : s.last_uploaded_name = some name) :
    App.uploadEvent s name content = (s, LoadReport.skipped) := by
  simp [App.uploadEvent, h1, h2]

theorem c10_witness :
    sLoaded.df = some tNum1 ∧ sLoaded.last_uploaded_name = some "a.csv" ∧
    App.uploadEvent sLoaded "a.csv" [["a"], ["999"]] = (sLoaded, LoadReport.skipped) :=
  ⟨rfl, rfl,
   c10_same_name_skips_loader sLoaded tNum1 "a.csv" [["a"], ["999"]] rfl rfl⟩

lemma describedPairs_all_isNum {t : Table}
    (h : (t.headers.zip t.cols).any (fun p => p.2.isNum) = true) :
    describedPairs t = (t.headers.zip t.cols).filter (fun p => p.2.isNum) := by
  rcases List.any_eq_true.mp h with ⟨p, hp, hnum⟩
  have hmemf : p ∈ (t.headers.zip t.cols).filter (fun q => q.2.isNum) :=
    List.mem_filter.mpr ⟨hp, hnum⟩
  have hne : (t.headers.zip t.cols).filter (fun q => q.2.isNum) ≠ [] :=
    List.ne_nil_of_mem hmemf
  unfold describedPairs
  simp [hne]

/-- C3: the failing input — a table whose only column is text.  The
`describe()` result is not empty (it analyses the object column), the
browser app's range loop raises a `TypeError` from subtracting strings,
and the desktop app shows the object-column analysis with no "no
numeric columns" notice. -/
theorem c3_no_numeric_columns_behavior :
    read_csv [["name"], ["alice"], ["bob"]] = Except.ok tTextName ∧
    describe tTextName = [("name", DescribeEntry.objectStats 2)] ∧
    App.show_statistics tTextName =
      StatsResult.raised "TypeError: unsupported operand types for subtraction: str and str" ∧
    Tk.show_statistics tTextName =
      StatsResult.ok [("name", DescribeEntry.objectStats 2)] [] :=
  ⟨rfl, rfl, rfl, rfl⟩

/-- C5 (counterexample): on a table with no numeric column the
Summarizer's result is not restricted to numeric columns — pandas
`describe()` falls back to the object columns, so a non-numeric column
appears in the result instead of being excluded entirely. -/
theorem c5_counterexample :
    describe tTextName = [("name", DescribeEntry.objectStats 2)] ∧
    tTextName.isNumericCol "name" = false := by decide

/-- C5 (amended): when the table has at least one numeric column, the
Summarizer's result contains an entry for exactly the numeric columns,
in the table's original column order, each carrying numeric statistics;
when no numeric column exists, `describe()` instead falls back to the
non-numeric columns. -/
theorem c5_amended_numeric_columns_in_order (t : Table)
    (h : (t.headers.zip t.cols).any (fun p => p.2.isNum) = true) :
    (describe t).map Prod.fst =
      ((t.headers.zip t.cols).filter (fun p => p.2.isNum)).map Prod.fst ∧
    ∀ p ∈ describe t, ∃ s, p.2 = DescribeEntry.numericStats s := by
  have hde : describedPairs t = (t.headers.zip t.cols).filter (fun p => p.2.isNum) :=
    describedPairs_all_isNum h
  constructor
  · unfold describe
    rw [hde, List.map_map]
    apply List.map_congr_left
    intro p _
    rcases p with ⟨n, cd⟩
    cases cd <;> rfl
  · intro p hp
    unfold describe at hp
    rw [hde] at hp
    rcases List.mem_map.mp hp with ⟨q, hq, hqe⟩
    have hnum : q.2.isNum = true := (List.mem_filter.mp hq).2
    rcases q with ⟨n, cd⟩
    cases cd with
    | numeric cells => exact ⟨describeNumeric cells, by rw [← hqe]⟩
    | text cells => simp [ColData.isNum] at hnum

theorem c5_witness :
    ((tMixed.headers.zip tMixed.cols).any (fun p => p.2.isNum) = true) ∧
    ((describe tMixed).map Prod.fst =
       ((tMixed.headers.zip tMixed.cols).filter (fun p => p.2.isNum)).map Prod.fst ∧
     ∀ p ∈ describe tMixed, ∃ s, p.2 = DescribeEntry.numericStats s) :=
  ⟨by decide, c5_amended_numeric_columns_in_order tMixed (by decide)⟩

/-- C6: for any numeric column of a table, the Summarizer's range is the
column's maximum minus its minimum at full precision (`colRange`,
computed independently from `describe()`), and it reaches the displayed
ranges list rounded to two decimal places, while the `describe()` entry
keeps the full-precision min and max. -/
theorem c6_range_is_max_minus_min (t : Table) (c : String)
    (cells : List (Option ℚ)) (mn mx : ℚ)
    (hc : (c, ColData.numeric cells) ∈ t.headers.zip t.cols)
    (hmn : listMin (cells.filterMap id) = some mn)
    (hmx : listMax (cells.filterMap id) = some mx) :
    colRange cells = some (mx - mn) ∧
    (describeNumeric cells).min = some mn ∧
    (describeNumeric cells).max = some mx ∧
    ∃ stats ranges, App.show_statistics t = StatsResult.ok stats ranges ∧
      (c, some (round2 (mx - mn))) ∈ ranges ∧
      (c, DescribeEntry.numericStats (describeNumeric cells)) ∈ stats := by
  have h1 : colRange cells = some (mx - mn) := by
    unfold colRange
    rw [hmn, hmx]
  have hany : (t.headers.zip t.cols).any (fun p => p.2.isNum) = true :=
    List.any_eq_true.mpr ⟨(c, .numeric cells), hc, rfl⟩
  have hde := describedPairs_all_isNum hany
  have hmemf : (c, ColData.numeric cells) ∈ describedPairs t := by
    rw [hde]
    exact List.mem_filter.mpr ⟨hc, rfl⟩
  have hall : (describedPairs t).all (fun p => p.2.isNum) = true := by
    rw [hde]
    exact List.all_eq_true.mpr (fun p hp => (List.mem_filter.mp hp).2)
  refine ⟨h1, by simp [describeNumeric, hmn], by simp [describeNumeric, hmx],
    describe t,
    (describedPairs t).map
      (fun p =>
        match p.2 with
        | .numeric cells2 => (p.1, (colRange cells2).map round2)
        | .text _ => (p.1, none)), ?_, ?_, ?_⟩
  · simp [App.show_statistics, hall]
  · exact List.mem_map.mpr ⟨(c, .numeric cells), hmemf, by simp [h1]⟩
  · unfold describe
    exact List.mem_map.mpr ⟨(c, .numeric cells), hmemf, rfl⟩

theorem c6_witness :
    (("v", ColData.numeric [some 1, some 2, some 3, some 4, some 5]) ∈
        tVals15.headers.zip tVals15.cols ∧
     listMin ([some 1, some 2, some 3, some 4, some 5].filterMap id) = some 1 ∧
     listMax ([some 1, some 2, some 3, some 4, some 5].filterMap id) = some 5) ∧
    (colRange [some 1, some 2, some 3, some 4, some 5] = some ((5 : ℚ) - 1) ∧
     (describeNumeric [some 1, some 2, some 3, some 4, some 5]).min = some 1 ∧
     (describeNumeric [some 1, some 2, some 3, some 4, some 5]).max = some 5 ∧
     ∃ stats ranges, App.show_statistics tVals15 = StatsResult.ok stats ranges ∧
       ("v", some (round2 ((5 : ℚ) - 1))) ∈ ranges ∧
       ("v", DescribeEntry.numericStats
          (describeNumeric [some 1, some 2, some 3, some 4, some 5])) ∈ stats) ∧
    (describeNumeric [some 1, some 2, some 3, some 4, some 5]).count = 5 ∧
    (describeNumeric [some 1, some 2, some 3, some 4, some 5]).mean = some 3 ∧
    round2 ((5 : ℚ) - 1) = 4 :=
  ⟨⟨by decide, by decide, by decide⟩,
   c6_range_is_max_minus_min tVals15 "v" [some 1, some 2, some 3, some 4, some 5]
     1 5 (by decide) (by decide) (by decide),
   by decide, by simp [describeNumeric, List.filterMap_cons]; norm_num, by norm_num [round2]⟩

lemma list_range_map_sum (f : ℕ → ℕ) (n : ℕ) :
    ((List.range n).map f).sum = ∑ i ∈ Finset.range n, f i := by
  induction n with
  | zero => simp
  | succ n ih =>
    rw [List.range_succ, List.map_append, List.sum_append, Finset.sum_range_succ, ih]
    simp

lemma binEdge_zero (lo hi : ℚ) : binEdge lo hi 0 = lo := by
  simp [binEdge]

lemma binEdge_twenty (lo hi : ℚ) : binEdge lo hi 20 = hi := by
  unfold binEdge
  push_cast
  ring

lemma binEdge_le_iff {lo hi x : ℚ} (hd : 0 < hi - lo) (i : Nat) :
    binEdge lo hi i ≤ x ↔ (i : ℚ) ≤ (x - lo) * 20 / (hi - lo) := by
  rw [le_div_iff₀ hd]
  unfold binEdge
  constructor <;> intro h <;> linarith

lemma lt_binEdge_iff {lo hi x : ℚ} (hd : 0 < hi - lo) (i : Nat) :
    x < binEdge lo hi i ↔ (x - lo) * 20 / (hi - lo) < (i : ℚ) := by
  rw [div_lt_iff₀ hd]
  unfold binEdge
  constructor <;> intro h <;> linarith

lemma histRange_const {vs : List ℚ} {m : ℚ}
    (h1 : listMin vs = some m) (h2 : listMax vs = some m) :
    histRange vs = (m - 1/2, m + 1/2) := by
  simp [histRange, h1, h2]

lemma histRange_ne {vs : List ℚ} {mn mx : ℚ}
    (h1 : listMin vs = some mn) (h2 : listMax vs = some mx) (h : mn ≠ mx) :
    histRange vs = (mn, mx) := by
  simp [histRange, h1, h2, h]

lemma histRange_bounds (vs : List ℚ) (hne : vs ≠ []) :
    (histRange vs).1 < (histRange vs).2 ∧
      ∀ x ∈ vs, (histRange vs).1 ≤ x ∧ x ≤ (histRange vs).2 := by
  cases vs with
  | nil => exact absurd rfl hne
  | cons a as =>
    have h1 : listMin (a :: as) = some (as.foldl min a) := rfl
    have h2 : listMax (a :: as) = some (as.foldl max a) := rfl
    by_cases he : as.foldl min a = as.foldl max a
    · have h2' : listMax (a :: as) = some (as.foldl min a) := by rw [h2, he]
      rw [histRange_const h1 h2']
      refine ⟨by linarith, fun x hx => ?_⟩
      have hlow := listMin_le h1 x hx
      have hhigh := le_listMax h2 x hx
      rw [← he] at hhigh
      constructor <;> simp <;> linarith
    · rw [histRange_ne h1 h2 he]
      have hle := listMin_le_listMax h1 h2
      refine ⟨lt_of_le_of_ne hle he, fun x hx => ?_⟩
      exact ⟨listMin_le h1 x hx, le_listMax h2 x hx⟩

lemma inBin_iff_eq_binIdx {lo hi x : ℚ} (hd : lo < hi) (h1 : lo ≤ x) (h2 : x ≤ hi)
    {i : Nat} (hilt : i < 20) :
    inBin lo hi i x = true ↔ i = binIdx lo hi x := by
  have hd' : 0 < hi - lo := by linarith
  have hq0 : 0 ≤ (x - lo) * 20 / (hi - lo) := div_nonneg (by linarith) (by linarith)
  have hq20 : (x - lo) * 20 / (hi - lo) ≤ 20 := by
    rw [div_le_iff₀ hd']
    linarith
  unfold inBin binIdx
  by_cases h19 : i = 19
  · subst h19
    rw [if_pos rfl, Bool.and_eq_true, decide_eq_true_iff, decide_eq_true_iff]
    rw [binEdge_twenty, binEdge_le_iff hd' 19]
    constructor
    · rintro ⟨hge, _⟩
      have hf : 19 ≤ ⌊(x - lo) * 20 / (hi - lo)⌋₊ := by
        rw [Nat.le_floor_iff hq0]
        exact_mod_cast hge
      omega
    · intro hmin
      have h19le : 19 ≤ ⌊(x - lo) * 20 / (hi - lo)⌋₊ := by omega
      have hge := (Nat.le_floor_iff hq0).mp h19le
      exact ⟨by exact_mod_cast hge, h2⟩
  · rw [if_neg h19, Bool.and_eq_true, decide_eq_true_iff, decide_eq_true_iff]
    rw [binEdge_le_iff hd' i, lt_binEdge_iff hd' (i + 1)]
    constructor
    · rintro ⟨hge, hlt⟩
      have hfl : ⌊(x - lo) * 20 / (hi - lo)⌋₊ = i := by
        rw [Nat.floor_eq_iff hq0]
        refine ⟨hge, ?_⟩
        push_cast at hlt ⊢
        linarith
      omega
    · intro hmin
      have hfl : ⌊(x - lo) * 20 / (hi - lo)⌋₊ = i := by omega
      rw [Nat.floor_eq_iff hq0] at hfl
      refine ⟨hfl.1, ?_⟩
      push_cast
      linarith [hfl.2]

lemma sum_indicator_bins {lo hi x : ℚ} (hd : lo < hi) (h1 : lo ≤ x) (h2 : x ≤ hi) :
    (∑ i ∈ Finset.range 20, if inBin lo hi i x then (1 : ℕ) else 0) = 1 := by
  have hb : binIdx lo hi x < 20 := by
    unfold binIdx
    omega
  have hcong : ∀ i ∈ Finset.range 20,
      (if inBin lo hi i x then (1 : ℕ) else 0) =
        if i = binIdx lo hi x then (1 : ℕ) else 0 := by
    intro i hmem
    rw [Finset.mem_range] at hmem
    simp only [inBin_iff_eq_binIdx hd h1 h2 hmem]
  rw [Finset.sum_congr rfl hcong]
  rw [Finset.sum_ite_eq' (Finset.range 20) (binIdx lo hi x) (fun _ => (1 : ℕ))]
  simp [hb]

lemma counts_sum_aux (lo hi : ℚ) (hd : lo < hi) (vs : List ℚ)
    (hin : ∀ x ∈ vs, lo ≤ x ∧ x ≤ hi) :
    ((List.range 20).map (fun i => vs.countP (inBin lo hi i))).sum = vs.length := by
  induction vs with
  | nil =>
    rw [list_range_map_sum]
    simp
  | cons x xs ih =>
    have hx := hin x (List.mem_cons_self x xs)
    have hxs : ∀ y ∈ xs, lo ≤ y ∧ y ≤ hi := fun y hy => hin y (List.mem_cons_of_mem x hy)
    rw [list_range_map_sum] at ih ⊢
    simp only [List.countP_cons]
    rw [Finset.sum_add_distrib, ih hxs, sum_indicator_bins hd hx.1 hx.2]
    simp

/-- The 20 per-bin counts of a histogram always sum to the number of
values binned (NumPy histogram semantics over `[lo, hi]`). -/
lemma histogram_counts_sum (vs : List ℚ) : (histogram vs).counts.sum = vs.length := by
  have hcounts : (histogram vs).counts =
      (List.range 20).map (fun i => vs.countP (inBin (histRange vs).1 (histRange vs).2 i)) := rfl
  rw [hcounts]
  by_cases hne : vs = []
  · subst hne
    rw [list_range_map_sum]
    simp
  · obtain ⟨hlt, hbounds⟩ := histRange_bounds vs hne
    exact counts_sum_aux _ _ hlt vs hbounds

lemma histogram_edges_length (vs : List ℚ) : (histogram vs).edges.length = 21 := by
  simp [histogram]

lemma histogram_edges_head (vs : List ℚ) :
    (histogram vs).edges.head? = some (histRange vs).1 := by
  have hedges : (histogram vs).edges =
      (List.range 21).map (binEdge (histRange vs).1 (histRange vs).2) := rfl
  rw [hedges, List.range_succ_eq_map]
  simp [binEdge_zero]

lemma histogram_edges_last (vs : List ℚ) :
    (histogram vs).edges.getLast? = some (histRange vs).2 := by
  have hedges : (histogram vs).edges =
      (List.range 21).map (binEdge (histRange vs).1 (histRange vs).2) := rfl
  rw [hedges, List.range_succ, List.map_append]
  simp [binEdge_twenty]

/-- C4 (counterexample): on a numeric column whose values are all equal
(values 5, 5) the 20 bins do not span `[min, max]` — NumPy widens the
degenerate range, so the first bin edge is `min - 1/2`, not `min`.  The
counts still sum to N. -/
theorem c4_counterexample :
    App.visualize_data tConst "a" =
      PlotResult.figure (histogram [5, 5]) "Histogram of a" "a" "Frequency" ∧
    listMin [(5 : ℚ), 5] = some 5 ∧
    listMax [(5 : ℚ), 5] = some 5 ∧
    (histogram [(5 : ℚ), 5]).edges.head? = some (5 - 1/2) ∧
    (5 : ℚ) - 1/2 ≠ 5 ∧
    (histogram [(5 : ℚ), 5]).counts.sum = 2 := by
  refine ⟨rfl, by decide, by decide, ?_, by norm_num, ?_⟩
  · rw [histogram_edges_head,
      histRange_const (show listMin [(5 : ℚ), 5] = some 5 by decide)
        (show listMax [(5 : ℚ), 5] = some 5 by decide)]
  · simpa using histogram_counts_sum [5, 5]

/-- C4 (amended): for a numeric column, the Plotter renders a histogram
of the column's non-missing values whose 20 bin counts always sum to N
(the number of those values) and whose 21 edges are equal-width; when
`min < max` the edges span exactly `[min, max]`; when all values
coincide NumPy widens the range to `[min - 1/2, max + 1/2]`. -/
theorem c4_amended_histogram (t : Table) (c : String)
    (cells : List (Option ℚ)) (mn mx : ℚ)
    (hc : c ≠ "") (h1 : t.col? c = some (ColData.numeric cells))
    (hmn : listMin (cells.filterMap id) = some mn)
    (hmx : listMax (cells.filterMap id) = some mx) :
    App.visualize_data t c =
      PlotResult.figure (histogram (cells.filterMap id))
        ("Histogram of " ++ c) c "Frequency" ∧
    (histogram (cells.filterMap id)).counts.sum = (cells.filterMap id).length ∧
    (histogram (cells.filterMap id)).edges.length = 21 ∧
    (mn < mx →
      (histogram (cells.filterMap id)).edges.head? = some mn ∧
      (histogram (cells.filterMap id)).edges.getLast? = some mx ∧
      ∀ i : Nat, binEdge mn mx (i + 1) - binEdge mn mx i = (mx - mn) / 20) := by
  have hhas := hasCol_of_col? h1
  have hnum : t.isNumericCol c = true := by
    unfold Table.isNumericCol
    rw [h1]
    rfl
  have hguard : (c != "" && t.hasCol c && t.isNumericCol c) = true := by
    simp [hc, hhas, hnum]
  refine ⟨?_, histogram_counts_sum _, histogram_edges_length _, ?_⟩
  · simp [App.visualize_data, hguard, h1, ColData.values]
  · intro hlt
    have hrange := histRange_ne hmn hmx (ne_of_lt hlt)
    refine ⟨?_, ?_, ?_⟩
    · rw [histogram_edges_head, hrange]
    · rw [histogram_edges_last, hrange]
    · intro i
      unfold binEdge
      push_cast
      ring

theorem c4_witness :
    ("v" ≠ "" ∧
     tVals15.col? "v" = some (ColData.numeric [some 1, some 2, some 3, some 4, some 5]) ∧
     listMin ([some 1, some 2, some 3, some 4, some 5].filterMap id) = some 1 ∧
     listMax ([some 1, some 2, some 3, some 4, some 5].filterMap id) = some 5) ∧
    (App.visualize_data tVals15 "v" =
       PlotResult.figure (histogram ([some 1, some 2, some 3, some 4, some 5].filterMap id))
         ("Histogram of " ++ "v") "v" "Frequency" ∧
     (histogram ([some 1, some 2, some 3, some 4, some 5].filterMap id)).counts.sum =
       ([some 1, some 2, some 3, some 4, some 5].filterMap id).length ∧
     (histogram ([some 1, some 2, some 3, some 4, some 5].filterMap id)).edges.length = 21 ∧
     ((1 : ℚ) < 5 →
       (histogram ([some 1, some 2, some 3, some 4, some 5].filterMap id)).edges.head? =
         some 1 ∧
       (histogram ([some 1, some 2, some 3, some 4, some 5].filterMap id)).edges.getLast? =
         some 5 ∧
       ∀ i : Nat, binEdge 1 5 (i + 1) - binEdge 1 5 i = ((5 : ℚ) - 1) / 20)) :=
  ⟨⟨by decide, by decide, by decide, by decide⟩,
   c4_amended_histogram tVals15 "v" [some 1, some 2, some 3, some 4, some 5] 1 5
     (by decide) (by decide) (by decide) (by decide)⟩
